import Mathlib

/-!
# ErriezINA219: a shallow embedding of the INA219 driver

The driver of `src/ErriezINA219.cpp` and `src/ErriezINA219.h` is embedded as pure
state-passing functions.

* The class members are the fields of `INA219`.  The C++ `float` members are embedded as
  rationals: every arithmetic step is the exact one, rounding to single precision is
  not modelled.
* The global `Wire` object is embedded as the list of calls the driver has made on it
  (`World.wire`); what the bus answers is an argument of each operation, so a statement
  quantified over these arguments covers every transport behaviour.
* The width of the C `int` is a parameter (`Target`): 16 bits on AVR, 32 bits on ARM
  and ESP.  Signed results that do not fit are wrapped modulo `2 ^ intBits`.
-/

namespace ErriezINA219

/-! ## Register map and configuration constants (`ErriezINA219.h`) -/

def INA219_I2C_ADDRESS : Nat := 0x40
def INA219_SHUNT_RESISTOR : ℚ := 1 / 10

def INA219_REG_CONFIG : Nat := 0x00
def INA219_REG_SHUNTVOLTAGE : Nat := 0x01
def INA219_REG_BUSVOLTAGE : Nat := 0x02
def INA219_REG_POWER : Nat := 0x03
def INA219_REG_CURRENT : Nat := 0x04
def INA219_REG_CALIBRATION : Nat := 0x05

def INA219_CONFIG_RST : Nat := 15
def INA219_CONFIG_BRNG : Nat := 13
def INA219_CONFIG_BRNG_16V : Nat := 0 <<< 13
def INA219_CONFIG_BRNG_32V : Nat := 1 <<< 13

def INA219_CONFIG_GAIN_MASK : Nat := 3 <<< 12
def INA219_CONFIG_GAIN_1 : Nat := 0 <<< 12
def INA219_CONFIG_GAIN_2 : Nat := 1 <<< 12
def INA219_CONFIG_GAIN_4 : Nat := 2 <<< 12
def INA219_CONFIG_GAIN_8 : Nat := 3 <<< 12

def INA219_CONFIG_BADC_MASK : Nat := 0x0780
/-- The macro `INA219_CONFIG_BADC(adc)`: `((adc & INA219_CONFIG_BADC_MASK) << 7)`. -/
def INA219_CONFIG_BADC (adc : Nat) : Nat := (adc &&& INA219_CONFIG_BADC_MASK) <<< 7

def INA219_CONFIG_SADC_MASK : Nat := 0x0078
/-- The macro `INA219_CONFIG_SADC(adc)`: `((adc & INA219_CONFIG_BADC_MASK) << 3)`
(the source masks with the bus-ADC mask here). -/
def INA219_CONFIG_SADC (adc : Nat) : Nat := (adc &&& INA219_CONFIG_BADC_MASK) <<< 3

def INA219_CONFIG_xADC_9B : Nat := 0
def INA219_CONFIG_xADC_10B : Nat := 1
def INA219_CONFIG_xADC_11B : Nat := 2
def INA219_CONFIG_xADC_12B : Nat := 3
def INA219_CONFIG_xADC_2S : Nat := 9
def INA219_CONFIG_xADC_4S : Nat := 10
def INA219_CONFIG_xADC_8S : Nat := 11
def INA219_CONFIG_xADC_16S : Nat := 12
def INA219_CONFIG_xADC_32S : Nat := 13
def INA219_CONFIG_xADC_64S : Nat := 14
def INA219_CONFIG_xADC_128S : Nat := 15

def INA219_CONFIG_MODE_MASK : Nat := 0x0007
/-- The macro `INA219_CONFIG_MODE(mode)`: `((mode & INA219_CONFIG_MODE_MASK) << 0)`. -/
def INA219_CONFIG_MODE (mode : Nat) : Nat := (mode &&& INA219_CONFIG_MODE_MASK) <<< 0
def INA219_CONFIG_MODE_POWER_DOWN : Nat := 0
def INA219_CONFIG_MODE_SHUNT_TRG : Nat := 1
def INA219_CONFIG_MODE_BUS_TRG : Nat := 2
def INA219_CONFIG_MODE_SHUNT_BUS_TRG : Nat := 3
def INA219_CONFIG_MODE_ADC_OFF : Nat := 4
def INA219_CONFIG_MODE_SHUNT_CNT : Nat := 5
def INA219_CONFIG_MODE_BUS_CNT : Nat := 6
def INA219_CONFIG_MODE_SHUNT_BUS_CNT : Nat := 7

/-- Default config register value, written by `powerUp`. -/
def REG_CONFIG_VALUE : Nat := 0x399F

/-! ## Machine integers -/

/-- The compilation target: the number of bits of the C `int`, at least 16. -/
structure Target where
  intBits : Nat
  intBits_ge : 16 ≤ intBits

/-- AVR boards: `int` has 16 bits. -/
def Target.avr : Target := ⟨16, by decide⟩

/-- ARM and ESP boards: `int` has 32 bits. -/
def Target.arm : Target := ⟨32, by decide⟩

/-- The value a signed integer of `bits` bits holds after a result `x` that may not fit:
`x` modulo `2 ^ bits`, taken in `[-2 ^ (bits - 1), 2 ^ (bits - 1))`. -/
def wrapSigned (bits : Nat) (x : Int) : Int :=
  (x + 2 ^ (bits - 1)) % 2 ^ bits - 2 ^ (bits - 1)

/-- Conversion to `int16_t`. -/
def toInt16 (x : Int) : Int := wrapSigned 16 x

/-- Conversion to `uint16_t`. -/
def toUint16 (x : Int) : Nat := (x % 65536).toNat

/-- The 16-bit two's-complement encoding of a signed value, as a register holds it. -/
def encodeInt16 (v : Int) : Nat := toUint16 v

/-! ## The `Wire` object -/

/-- A call the driver makes on `Wire` that reaches the bus. -/
inductive WireCall where
  /-- `beginTransmission(address)`, `write(data)`, `endTransmission(sendStop)`. -/
  | transmission (address : Nat) (data : List Nat) (sendStop : Bool)
  /-- `requestFrom(address, quantity)`. -/
  | requestFrom (address : Nat) (quantity : Nat)
  deriving DecidableEq, Repr

/-- What the bus answers during one `registerRead`: the code that
`Wire.endTransmission(false)` returns, and the results of the two `Wire.read()` calls,
`none` standing for `-1` (no byte available). -/
structure ReadReply where
  status : Fin 256
  first : Option (Fin 256)
  second : Option (Fin 256)
  deriving DecidableEq, Repr

/-- The reply of a device that acknowledges and sends the 16-bit value `val`,
most significant byte first. -/
def ReadReply.ok (val : Nat) : ReadReply :=
  ⟨0, some ⟨(val / 256) % 256, Nat.mod_lt _ (by decide)⟩,
      some ⟨val % 256, Nat.mod_lt _ (by decide)⟩⟩

/-- The reply of a transaction that ends with the non-zero code `code` and yields no
byte. -/
def ReadReply.failed (code : Fin 256) : ReadReply := ⟨code, none, none⟩

/-- The bit pattern of the `int` that `Wire.read()` returns on target `t`:
the byte, or all ones for `-1`. -/
def wireReadBits (t : Target) : Option (Fin 256) → Nat
  | some b => b.val
  | none => 2 ^ t.intBits - 1

/-! ## The driver state -/

/-- The data members of `class INA219`. -/
structure INA219 where
  busVoltage : ℚ
  shuntVoltage : ℚ
  current : ℚ
  power : ℚ
  overflow : Bool
  available : Bool
  _i2cAddress : Nat
  _i2cStatus : Nat
  _shuntResistor : ℚ
  _powerDown : Bool
  deriving DecidableEq, Repr

/-- The driver object together with the calls made so far on `Wire`, oldest first. -/
structure World where
  dev : INA219
  wire : List WireCall
  deriving DecidableEq, Repr

/-! ## Conversion of the raw registers (`INA219::read`, the arithmetic) -/

/-- The operand `(~shuntVoltageReg) + 1` of the cast in `read`.  With a 16-bit `int`
the `uint16_t` operand is an `unsigned int` and the arithmetic is modulo `65536`; with a
wider `int` the operand is promoted to `int`, where `~x` is `-x - 1`. -/
def complementPlusOne (t : Target) (shuntVoltageReg : Nat) : Int :=
  if t.intBits = 16 then
    ((65535 - (shuntVoltageReg : Int)) + 1) % 65536
  else
    (-(shuntVoltageReg : Int) - 1) + 1

/-- The integer that `read` assigns to `shuntVoltage` before `shuntVoltage /= 100`:
`(int16_t)((~shuntVoltageReg) + 1) * -1` when bit 15 is set, `shuntVoltageReg` otherwise.
The product is an `int` of the target; it fits unless `int` has 16 bits and the register
is `0x8000`, where C++ leaves the overflow undefined and the wrapped value stands for it. -/
def shuntVoltageCounts (t : Target) (shuntVoltageReg : Nat) : Int :=
  if shuntVoltageReg &&& 0x8000 ≠ 0 then
    wrapSigned t.intBits (toInt16 (complementPlusOne t shuntVoltageReg) * -1)
  else
    (shuntVoltageReg : Int)

/-- The integer that `read` assigns to `busVoltage` before `busVoltage /= 1000`:
`0xFFFF` when the OVF bit is set, `(busVoltageReg >> 3) * 4` otherwise. -/
def busVoltageCounts (busVoltageReg : Nat) : Nat :=
  if busVoltageReg &&& 0x01 ≠ 0 then 0xFFFF else (busVoltageReg >>> 3) * 4

/-! ## The member functions (`ErriezINA219.cpp`) -/

namespace INA219

/-- `INA219::clear`. -/
def clear (d : INA219) : INA219 :=
  { d with busVoltage := 0, shuntVoltage := 0, current := 0, power := 0, available := false }

/-- `INA219::getI2CStatus`. -/
def getI2CStatus (d : INA219) : Nat := d._i2cStatus

/-- The three bytes `{ reg, (uint8_t)(val >> 8), (uint8_t)(val & 0xff) }` of
`registerWrite`, for a `uint8_t reg` and a `uint16_t val`. -/
def writeBuffer (reg val : Nat) : List Nat :=
  [reg % 256, ((val % 65536) >>> 8) % 256, ((val % 65536) &&& 0xff) % 256]

/-- `INA219::registerWrite`; `endCode` is what `Wire.endTransmission()` returns. -/
def registerWrite (s : World) (reg val : Nat) (endCode : Fin 256) : World :=
  { dev := { s.dev with _i2cStatus := if endCode.val = 0 then 1 else 0 }
    wire := s.wire ++ [WireCall.transmission s.dev._i2cAddress (writeBuffer reg val) true] }

/-- The value `(Wire.read() << 8) | Wire.read()` converted to `uint16_t`, computed on
the bit patterns of the two `int` results. -/
def combineBytes (t : Target) (first second : Option (Fin 256)) : Nat :=
  ((((wireReadBits t first) <<< 8) % 2 ^ t.intBits) ||| wireReadBits t second) % 65536

/-- `INA219::registerRead`; `r` is what the bus answers. -/
def registerRead (t : Target) (s : World) (reg : Nat) (r : ReadReply) : World × Nat :=
  ({ dev := { s.dev with _i2cStatus := r.status.val }
     wire := s.wire ++ [WireCall.transmission s.dev._i2cAddress [reg % 256] false,
                        WireCall.requestFrom s.dev._i2cAddress 2] },
   combineBytes t r.first r.second)

/-- `INA219::powerDown`; the result is `_i2cStatus` converted to `bool`. -/
def powerDown (s : World) (endCode : Fin 256) : World × Bool :=
  let s1 : World := { s with dev := { s.dev with _powerDown := true } }
  let s2 := registerWrite s1 INA219_REG_CONFIG 0x3998 endCode
  (s2, decide (s2.dev._i2cStatus ≠ 0))

/-- `INA219::powerUp`; the result is `_i2cStatus` converted to `bool`. -/
def powerUp (s : World) (endCode : Fin 256) : World × Bool :=
  let s0 : World := { s with dev := clear s.dev }
  let s1 : World := { s0 with dev := { s0.dev with _powerDown := false } }
  let s2 := registerWrite s1 INA219_REG_CONFIG REG_CONFIG_VALUE endCode
  (s2, decide (s2.dev._i2cStatus ≠ 0))

/-- `INA219::begin`. -/
def begin (s : World) (endCode : Fin 256) : World × Bool := powerUp s endCode

/-- `INA219::read`; `r1` answers the read of the shunt-voltage register and `r2` the
read of the bus-voltage register (`r2` is not consulted when the second read is not
reached). -/
def read (t : Target) (s : World) (r1 r2 : ReadReply) : World × Bool :=
  if s.dev._powerDown then (s, false) else
  let s0 : World := { s with dev := clear s.dev }
  let a := registerRead t s0 INA219_REG_SHUNTVOLTAGE r1
  let shuntVoltageReg := a.2
  if a.1.dev._i2cStatus ≠ 0 then (a.1, false) else
  let b := registerRead t a.1 INA219_REG_BUSVOLTAGE r2
  let busVoltageReg := b.2
  if b.1.dev._i2cStatus ≠ 0 then (b.1, false) else
  let shuntVoltage : ℚ := (shuntVoltageCounts t shuntVoltageReg : ℚ) / 100
  let overflow : Bool := decide (busVoltageReg &&& 0x01 ≠ 0)
  let busVoltage : ℚ := (busVoltageCounts busVoltageReg : ℚ) / 1000
  let current : ℚ := shuntVoltage / b.1.dev._shuntResistor
  let power : ℚ := busVoltage * current
  let power : ℚ := if power < 0 then power * -1 else power
  ({ b.1 with dev := { b.1.dev with
        busVoltage := busVoltage, shuntVoltage := shuntVoltage, current := current,
        power := power, overflow := overflow, available := true } }, true)

end INA219

/-! ## Sequences of calls -/

/-- A call of one of the three public operations, with what the bus answers to it. -/
inductive Op where
  | powerUp (endCode : Fin 256)
  | powerDown (endCode : Fin 256)
  | read (r1 r2 : ReadReply)
  deriving DecidableEq, Repr

/-- The state after one call. -/
def step (t : Target) (s : World) : Op → World
  | Op.powerUp c => (INA219.powerUp s c).1
  | Op.powerDown c => (INA219.powerDown s c).1
  | Op.read r1 r2 => (INA219.read t s r1 r2).1

/-- The state after a sequence of calls, first call first. -/
def run (t : Target) (s : World) (ops : List Op) : World := ops.foldl (step t) s

/-- A call that is not `powerUp`. -/
def Op.isPowerUp : Op → Bool
  | Op.powerUp _ => true
  | _ => false

/-- A call of `read`. -/
def Op.isRead : Op → Bool
  | Op.read _ _ => true
  | _ => false

/-- A call of `read` whose two register reads both end with status 0. -/
def Op.succeeds : Op → Bool
  | Op.read r1 r2 => decide (r1.status = 0 ∧ r2.status = 0)
  | _ => false

/-- Whether the list of calls is not empty and its last call is a `read` whose two
register reads both end with status 0. -/
def lastReadSucceeded (reads : List Op) : Bool :=
  match reads.getLast? with
  | some op => op.succeeds
  | none => false

/-- A state used in examples: a driver at the default address with the default shunt
resistor, every other member zero, nothing sent yet. -/
def World.fresh : World :=
  { dev := { busVoltage := 0, shuntVoltage := 0, current := 0, power := 0,
             overflow := false, available := false,
             _i2cAddress := INA219_I2C_ADDRESS, _i2cStatus := 0,
             _shuntResistor := INA219_SHUNT_RESISTOR, _powerDown := false }
    wire := [] }

/-- A state used in examples: `World.fresh` after a successful `read` of the shunt-voltage
register value `0x0032` and the bus-voltage register value `0x0C38` on AVR. -/
def World.measured : World :=
  (INA219.read Target.avr World.fresh (ReadReply.ok 0x0032) (ReadReply.ok 0x0C38)).1

/-! ## The Measurement Snapshot as a unit -/

/-- The six members of the Measurement Snapshot agree in `a` and `b`. -/
def sameSnapshot (a b : INA219) : Prop :=
  a.busVoltage = b.busVoltage ∧ a.shuntVoltage = b.shuntVoltage ∧
  a.current = b.current ∧ a.power = b.power ∧
  a.overflow = b.overflow ∧ a.available = b.available

/-- The Measurement Snapshot of `d` is the one a successful `read` leaves, for a driver
with the shunt resistor of `d`: all six members come from one conversion. -/
def fromConversion (t : Target) (d : INA219) : Prop :=
  ∃ (s0 : World) (r1 r2 : ReadReply),
    s0.dev._shuntResistor = d._shuntResistor ∧
    (INA219.read t s0 r1 r2).2 = true ∧
    sameSnapshot d (INA219.read t s0 r1 r2).1.dev

/-- The four measured values of `d` are zero and `available` is false (`overflow` is
not looked at). -/
def valuesCleared (d : INA219) : Prop :=
  d.busVoltage = 0 ∧ d.shuntVoltage = 0 ∧ d.current = 0 ∧ d.power = 0 ∧
  d.available = false

/-! ## How `read` unfolds -/

/-- The state `read` reaches when the first register read fails. -/
def afterFirstRead (t : Target) (s : World) (r1 : ReadReply) : World :=
  (INA219.registerRead t { s with dev := INA219.clear s.dev } INA219_REG_SHUNTVOLTAGE r1).1

/-- The state `read` reaches when the second register read fails. -/
def afterSecondRead (t : Target) (s : World) (r1 r2 : ReadReply) : World :=
  (INA219.registerRead t (afterFirstRead t s r1) INA219_REG_BUSVOLTAGE r2).1

/-- On a device flagged powered-down, `read` is the identity and returns false. -/
theorem read_poweredDown (t : Target) (s : World) (r1 r2 : ReadReply)
    (h : s.dev._powerDown = true) : INA219.read t s r1 r2 = (s, false) := by
  simp [INA219.read, h]

/-- A `read` whose first register read fails stops after it. -/
theorem read_first_failed (t : Target) (s : World) (r1 r2 : ReadReply)
    (h : s.dev._powerDown = false) (h1 : r1.status ≠ 0) :
    INA219.read t s r1 r2 = (afterFirstRead t s r1, false) := by
  have h1v : r1.status.val ≠ 0 := fun e => h1 (Fin.ext e)
  simp [INA219.read, h, INA219.registerRead, afterFirstRead, h1v]

/-- A `read` whose second register read fails stops after it. -/
theorem read_second_failed (t : Target) (s : World) (r1 r2 : ReadReply)
    (h : s.dev._powerDown = false) (h1 : r1.status = 0) (h2 : r2.status ≠ 0) :
    INA219.read t s r1 r2 = (afterSecondRead t s r1 r2, false) := by
  have h2v : r2.status.val ≠ 0 := fun e => h2 (Fin.ext e)
  simp [INA219.read, h, INA219.registerRead, afterFirstRead, afterSecondRead, h1, h2v]

/-- The result of `read` as a decision on the flag and the two status codes. -/
theorem read_result (t : Target) (s : World) (r1 r2 : ReadReply) :
    (INA219.read t s r1 r2).2
      = decide (s.dev._powerDown = false ∧ r1.status = 0 ∧ r2.status = 0) := by
  cases h : s.dev._powerDown
  · by_cases h1 : r1.status = 0
    · by_cases h2 : r2.status = 0
      · simp [INA219.read, h, INA219.registerRead, h1, h2]
      · rw [read_second_failed t s r1 r2 h h1 h2]; simp [h1, h2]
    · rw [read_first_failed t s r1 r2 h h1]; simp [h1]
  · rw [read_poweredDown t s r1 r2 h]; simp

/-- A `read` that returns true found the flag clear and both status codes 0. -/
theorem read_succeeds (t : Target) (s : World) (r1 r2 : ReadReply)
    (h : (INA219.read t s r1 r2).2 = true) :
    s.dev._powerDown = false ∧ r1.status = 0 ∧ r2.status = 0 := by
  rw [read_result] at h
  exact of_decide_eq_true h

/-- The members after a successful `read`, in terms of the two register values. -/
theorem read_ok_dev (t : Target) (s : World) (r1 r2 : ReadReply)
    (h : s.dev._powerDown = false) (h1 : r1.status = 0) (h2 : r2.status = 0) :
    (INA219.read t s r1 r2).1.dev =
      { busVoltage := (busVoltageCounts (INA219.combineBytes t r2.first r2.second) : ℚ) / 1000
        shuntVoltage :=
          (shuntVoltageCounts t (INA219.combineBytes t r1.first r1.second) : ℚ) / 100
        current :=
          (shuntVoltageCounts t (INA219.combineBytes t r1.first r1.second) : ℚ) / 100
            / s.dev._shuntResistor
        power :=
          if (busVoltageCounts (INA219.combineBytes t r2.first r2.second) : ℚ) / 1000
              * ((shuntVoltageCounts t (INA219.combineBytes t r1.first r1.second) : ℚ) / 100
                  / s.dev._shuntResistor) < 0
          then (busVoltageCounts (INA219.combineBytes t r2.first r2.second) : ℚ) / 1000
              * ((shuntVoltageCounts t (INA219.combineBytes t r1.first r1.second) : ℚ) / 100
                  / s.dev._shuntResistor) * -1
          else (busVoltageCounts (INA219.combineBytes t r2.first r2.second) : ℚ) / 1000
              * ((shuntVoltageCounts t (INA219.combineBytes t r1.first r1.second) : ℚ) / 100
                  / s.dev._shuntResistor)
        overflow := decide (INA219.combineBytes t r2.first r2.second &&& 0x01 ≠ 0)
        available := true
        _i2cAddress := s.dev._i2cAddress
        _i2cStatus := 0
        _shuntResistor := s.dev._shuntResistor
        _powerDown := false } := by
  simp [INA219.read, h, INA219.registerRead, INA219.clear, h1, h2]

/-- The calls on `Wire` after a `read` that reaches the second register read. -/
theorem read_wire (t : Target) (s : World) (r1 r2 : ReadReply)
    (h : s.dev._powerDown = false) (h1 : r1.status = 0) :
    (INA219.read t s r1 r2).1.wire =
      s.wire ++ [WireCall.transmission s.dev._i2cAddress [INA219_REG_SHUNTVOLTAGE] false,
                 WireCall.requestFrom s.dev._i2cAddress 2,
                 WireCall.transmission s.dev._i2cAddress [INA219_REG_BUSVOLTAGE] false,
                 WireCall.requestFrom s.dev._i2cAddress 2] := by
  by_cases h2 : r2.status = 0
  · simp [INA219.read, h, INA219.registerRead, INA219.clear, h1, h2,
      INA219_REG_SHUNTVOLTAGE, INA219_REG_BUSVOLTAGE]
  · have h2v : r2.status.val ≠ 0 := fun e => h2 (Fin.ext e)
    simp [INA219.read, h, INA219.registerRead, INA219.clear, h1, h2v,
      INA219_REG_SHUNTVOLTAGE, INA219_REG_BUSVOLTAGE]

/-- A device that acknowledges and sends `val` makes `registerRead` return `val`. -/
theorem combineBytes_ok (t : Target) (val : Nat) (h : val < 65536) :
    INA219.combineBytes t (ReadReply.ok val).first (ReadReply.ok val).second = val := by
  have hw : 65536 ≤ 2 ^ t.intBits :=
    le_trans (by norm_num) (Nat.pow_le_pow_right (by norm_num) t.intBits_ge)
  have hlo : val % 256 < 2 ^ 8 := Nat.mod_lt _ (by norm_num)
  have hhi : val / 256 < 256 := by omega
  simp only [INA219.combineBytes, ReadReply.ok, wireReadBits]
  rw [Nat.mod_eq_of_lt (a := val / 256) hhi]
  have hs : (val / 256) <<< 8 = 2 ^ 8 * (val / 256) := by
    rw [Nat.shiftLeft_eq, Nat.mul_comm]
  have hlt : (val / 256) <<< 8 < 2 ^ t.intBits := by omega
  rw [Nat.mod_eq_of_lt hlt, hs, ← Nat.mul_add_lt_is_or hlo]
  omega

/-- Bit 0 of a register value, as `read` tests it. -/
theorem and_one_ne_zero_iff (raw : Nat) : raw &&& 0x01 ≠ 0 ↔ raw.testBit 0 = true := by
  rw [Nat.and_one_is_mod, Nat.testBit_zero]
  simp

/-! ## The contract of `read` -/

/-- C1: for every state (shunt resistance included), every target and every pair of
bus replies, `read` returns true exactly when the device is not flagged powered-down
and both register reads end with transport status 0; a `read` that returns true leaves
`available` true, and has addressed register 0x01 first and register 0x02 second. -/
theorem read_true_iff (t : Target) (s : World) (r1 r2 : ReadReply) :
    ((INA219.read t s r1 r2).2 = true ↔
        (s.dev._powerDown = false ∧ r1.status = 0 ∧ r2.status = 0)) ∧
    ((INA219.read t s r1 r2).2 = true →
        (INA219.read t s r1 r2).1.dev.available = true ∧
        (INA219.read t s r1 r2).1.wire =
          s.wire ++ [WireCall.transmission s.dev._i2cAddress [0x01] false,
                     WireCall.requestFrom s.dev._i2cAddress 2,
                     WireCall.transmission s.dev._i2cAddress [0x02] false,
                     WireCall.requestFrom s.dev._i2cAddress 2]) := by
  refine ⟨?_, ?_⟩
  · rw [read_result]
    exact decide_eq_true_iff
  · intro h
    obtain ⟨hp, h1, h2⟩ := read_succeeds t s r1 r2 h
    refine ⟨?_, ?_⟩
    · rw [read_ok_dev t s r1 r2 hp h1 h2]
    · rw [read_wire t s r1 r2 hp h1]
      rfl

/-- C3: after a successful `read` whose bus-voltage register value is `raw`: when bit 0
of `raw` is set, `overflow` is true and `busVoltage` is `65535 / 1000`; when bit 0 is
clear, `overflow` is false and `busVoltage` is `((raw >> 3) * 4) / 1000`; and a second
reply whose value agrees with `raw` on bit 0 and on bits 3..15 gives the same
`busVoltage` and `overflow`, whatever its bits 1 and 2. -/
theorem read_busVoltage (t : Target) (s : World) (r1 r2 : ReadReply)
    (h : (INA219.read t s r1 r2).2 = true) :
    (Nat.testBit (INA219.combineBytes t r2.first r2.second) 0 = true →
        (INA219.read t s r1 r2).1.dev.overflow = true ∧
        (INA219.read t s r1 r2).1.dev.busVoltage = 65535 / 1000) ∧
    (Nat.testBit (INA219.combineBytes t r2.first r2.second) 0 = false →
        (INA219.read t s r1 r2).1.dev.overflow = false ∧
        (INA219.read t s r1 r2).1.dev.busVoltage =
          (((INA219.combineBytes t r2.first r2.second >>> 3) * 4 : Nat) : ℚ) / 1000) ∧
    (∀ r2b : ReadReply, r2b.status = 0 →
        Nat.testBit (INA219.combineBytes t r2b.first r2b.second) 0
          = Nat.testBit (INA219.combineBytes t r2.first r2.second) 0 →
        INA219.combineBytes t r2b.first r2b.second >>> 3
          = INA219.combineBytes t r2.first r2.second >>> 3 →
        (INA219.read t s r1 r2b).1.dev.overflow = (INA219.read t s r1 r2).1.dev.overflow ∧
        (INA219.read t s r1 r2b).1.dev.busVoltage
          = (INA219.read t s r1 r2).1.dev.busVoltage) := by
  obtain ⟨hp, h1, h2⟩ := read_succeeds t s r1 r2 h
  refine ⟨?_, ?_, ?_⟩
  · intro hb
    have hb1 := (and_one_ne_zero_iff _).mpr hb
    rw [read_ok_dev t s r1 r2 hp h1 h2]
    simp only [busVoltageCounts, if_pos hb1, decide_eq_true hb1]
    norm_num
  · intro hb
    have hb1 : ¬ (INA219.combineBytes t r2.first r2.second &&& 0x01 ≠ 0) := by
      rw [and_one_ne_zero_iff, hb]
      simp
    rw [read_ok_dev t s r1 r2 hp h1 h2]
    simp only [busVoltageCounts, if_neg hb1, decide_eq_false hb1]
    trivial
  · intro r2b h2b hbit hhigh
    rw [read_ok_dev t s r1 r2 hp h1 h2, read_ok_dev t s r1 r2b hp h1 h2b]
    have hand : (INA219.combineBytes t r2b.first r2b.second &&& 0x01 ≠ 0)
        ↔ (INA219.combineBytes t r2.first r2.second &&& 0x01 ≠ 0) := by
      rw [and_one_ne_zero_iff, and_one_ne_zero_iff, hbit]
    simp only [busVoltageCounts, hhigh, hand]
    exact ⟨trivial, trivial⟩

/-- An instance of `read_busVoltage`: register value `0x0C38`, overflow bit clear. -/
theorem read_busVoltage_witness :
    (INA219.read Target.arm World.fresh (ReadReply.ok 0x0032) (ReadReply.ok 0x0C38)).2 = true ∧
    (INA219.read Target.arm World.fresh (ReadReply.ok 0x0032)
        (ReadReply.ok 0x0C38)).1.dev.overflow = false ∧
    (INA219.read Target.arm World.fresh (ReadReply.ok 0x0032)
        (ReadReply.ok 0x0C38)).1.dev.busVoltage = ((391 * 4 : Nat) : ℚ) / 1000 :=
  ⟨by decide,
    (read_busVoltage Target.arm World.fresh (ReadReply.ok 0x0032) (ReadReply.ok 0x0C38)
      (by decide)).2.1 (by decide)⟩

/-- C4: after a successful `read` with a positive shunt resistance, `current` is
`shuntVoltage / shuntResistance` and `power` is `|busVoltage * current|`, hence not
negative, in exact arithmetic. -/
theorem read_current_power (t : Target) (s : World) (r1 r2 : ReadReply)
    (_hR : 0 < s.dev._shuntResistor) (h : (INA219.read t s r1 r2).2 = true) :
    (INA219.read t s r1 r2).1.dev.current
      = (INA219.read t s r1 r2).1.dev.shuntVoltage / s.dev._shuntResistor ∧
    (INA219.read t s r1 r2).1.dev.power
      = |(INA219.read t s r1 r2).1.dev.busVoltage * (INA219.read t s r1 r2).1.dev.current| ∧
    0 ≤ (INA219.read t s r1 r2).1.dev.power := by
  obtain ⟨hp, h1, h2⟩ := read_succeeds t s r1 r2 h
  rw [read_ok_dev t s r1 r2 hp h1 h2]
  refine ⟨rfl, ?_, ?_⟩
  · show (if _ < (0 : ℚ) then _ * -1 else _) = |_|
    split
    · rename_i hneg
      rw [abs_of_neg hneg]; ring
    · rename_i hnn
      rw [abs_of_nonneg (not_lt.mp hnn)]
  · show 0 ≤ (if _ < (0 : ℚ) then _ * -1 else _)
    split
    · rename_i hneg
      linarith
    · rename_i hnn
      exact not_lt.mp hnn

/-- An instance of `read_current_power`: a negative shunt voltage, `0xFFCE`. -/
theorem read_current_power_witness :
    0 < World.fresh.dev._shuntResistor ∧
    (INA219.read Target.arm World.fresh (ReadReply.ok 0xFFCE) (ReadReply.ok 0x0C38)).2 = true ∧
    (INA219.read Target.arm World.fresh (ReadReply.ok 0xFFCE) (ReadReply.ok 0x0C38)).1.dev.current
      = (INA219.read Target.arm World.fresh (ReadReply.ok 0xFFCE)
          (ReadReply.ok 0x0C38)).1.dev.shuntVoltage / World.fresh.dev._shuntResistor ∧
    (INA219.read Target.arm World.fresh (ReadReply.ok 0xFFCE) (ReadReply.ok 0x0C38)).1.dev.power
      = |(INA219.read Target.arm World.fresh (ReadReply.ok 0xFFCE)
            (ReadReply.ok 0x0C38)).1.dev.busVoltage
          * (INA219.read Target.arm World.fresh (ReadReply.ok 0xFFCE)
              (ReadReply.ok 0x0C38)).1.dev.current| ∧
    0 ≤ (INA219.read Target.arm World.fresh (ReadReply.ok 0xFFCE)
          (ReadReply.ok 0x0C38)).1.dev.power :=
  ⟨by norm_num [World.fresh, INA219_SHUNT_RESISTOR], by decide,
    read_current_power Target.arm World.fresh (ReadReply.ok 0xFFCE) (ReadReply.ok 0x0C38)
      (by norm_num [World.fresh, INA219_SHUNT_RESISTOR]) (by decide)⟩

/-- C7: `powerUp` returns true exactly when the transmission that writes `0x399F` to
the configuration register ends with code 0, and `powerDown` returns true exactly when
the transmission that writes `0x3998` to the configuration register ends with code 0,
whatever the prior state. -/
theorem powerUp_powerDown_result (s : World) (c : Fin 256) :
    ((INA219.powerUp s c).2 = true ↔ c = 0) ∧
    (INA219.powerUp s c).1.wire
      = s.wire ++ [WireCall.transmission s.dev._i2cAddress [0x00, 0x39, 0x9F] true] ∧
    ((INA219.powerDown s c).2 = true ↔ c = 0) ∧
    (INA219.powerDown s c).1.wire
      = s.wire ++ [WireCall.transmission s.dev._i2cAddress [0x00, 0x39, 0x98] true] := by
  have hc : c.val = 0 ↔ c = 0 := ⟨fun e => Fin.ext e, fun e => by rw [e]; rfl⟩
  refine ⟨?_, ?_, ?_, ?_⟩
  · by_cases h : c.val = 0 <;> simp [INA219.powerUp, INA219.registerWrite, h, ← hc]
  · simp [INA219.powerUp, INA219.registerWrite, INA219.clear, INA219.writeBuffer,
      INA219_REG_CONFIG, REG_CONFIG_VALUE]
    rfl
  · by_cases h : c.val = 0 <;> simp [INA219.powerDown, INA219.registerWrite, h, ← hc]
  · simp [INA219.powerDown, INA219.registerWrite, INA219.writeBuffer, INA219_REG_CONFIG]
    rfl

/-- C8: when `read` is called on a device not flagged powered-down and the first or the
second register read ends with a non-zero status (also when only the second one does),
`read` returns false and leaves `available` false and `busVoltage`, `shuntVoltage`,
`current` and `power` all zero, whatever the prior snapshot. -/
theorem read_failure_clears (t : Target) (s : World) (r1 r2 : ReadReply)
    (hp : s.dev._powerDown = false) (hfail : r1.status ≠ 0 ∨ r2.status ≠ 0) :
    (INA219.read t s r1 r2).2 = false ∧
    (INA219.read t s r1 r2).1.dev.available = false ∧
    (INA219.read t s r1 r2).1.dev.busVoltage = 0 ∧
    (INA219.read t s r1 r2).1.dev.shuntVoltage = 0 ∧
    (INA219.read t s r1 r2).1.dev.current = 0 ∧
    (INA219.read t s r1 r2).1.dev.power = 0 := by
  by_cases h1 : r1.status = 0
  · have h2 : r2.status ≠ 0 := hfail.resolve_left (fun hn => hn h1)
    rw [read_second_failed t s r1 r2 hp h1 h2]
    simp [afterSecondRead, afterFirstRead, INA219.registerRead, INA219.clear]
  · rw [read_first_failed t s r1 r2 hp h1]
    simp [afterFirstRead, INA219.registerRead, INA219.clear]

/-- An instance of `read_failure_clears`: a populated snapshot, the first register
read succeeds and the second one fails. -/
theorem read_failure_clears_witness :
    World.measured.dev._powerDown = false ∧
    World.measured.dev.available = true ∧
    ((ReadReply.ok 0x0032).status ≠ 0 ∨ (ReadReply.failed 2).status ≠ 0) ∧
    (INA219.read Target.avr World.measured (ReadReply.ok 0x0032) (ReadReply.failed 2)).2
      = false ∧
    (INA219.read Target.avr World.measured (ReadReply.ok 0x0032)
        (ReadReply.failed 2)).1.dev.available = false ∧
    (INA219.read Target.avr World.measured (ReadReply.ok 0x0032)
        (ReadReply.failed 2)).1.dev.busVoltage = 0 ∧
    (INA219.read Target.avr World.measured (ReadReply.ok 0x0032)
        (ReadReply.failed 2)).1.dev.shuntVoltage = 0 ∧
    (INA219.read Target.avr World.measured (ReadReply.ok 0x0032)
        (ReadReply.failed 2)).1.dev.current = 0 ∧
    (INA219.read Target.avr World.measured (ReadReply.ok 0x0032)
        (ReadReply.failed 2)).1.dev.power = 0 :=
  ⟨by decide, by decide, Or.inr (by decide),
    read_failure_clears Target.avr World.measured (ReadReply.ok 0x0032) (ReadReply.failed 2)
      (by decide) (Or.inr (by decide))⟩

/-- C9: on a device flagged powered-down, `read` returns false and returns the state it
was given: every member (the snapshot and `_i2cStatus` included) is as before and no
call on `Wire` has been added. -/
theorem read_poweredDown_noop (t : Target) (s : World) (r1 r2 : ReadReply)
    (hp : s.dev._powerDown = true) :
    (INA219.read t s r1 r2).2 = false ∧
    (INA219.read t s r1 r2).1.dev = s.dev ∧
    (INA219.read t s r1 r2).1.wire = s.wire := by
  rw [read_poweredDown t s r1 r2 hp]
  exact ⟨rfl, rfl, rfl⟩

/-- An instance of `read_poweredDown_noop`: a populated snapshot after `powerDown`. -/
theorem read_poweredDown_noop_witness :
    (INA219.powerDown World.measured 0).1.dev._powerDown = true ∧
    (INA219.read Target.avr (INA219.powerDown World.measured 0).1
        (ReadReply.ok 0x0100) (ReadReply.ok 0x0C38)).2 = false ∧
    (INA219.read Target.avr (INA219.powerDown World.measured 0).1
        (ReadReply.ok 0x0100) (ReadReply.ok 0x0C38)).1.dev
      = (INA219.powerDown World.measured 0).1.dev ∧
    (INA219.read Target.avr (INA219.powerDown World.measured 0).1
        (ReadReply.ok 0x0100) (ReadReply.ok 0x0C38)).1.wire
      = (INA219.powerDown World.measured 0).1.wire :=
  ⟨by decide,
    read_poweredDown_noop Target.avr (INA219.powerDown World.measured 0).1
      (ReadReply.ok 0x0100) (ReadReply.ok 0x0C38) (by decide)⟩

/-! ## The shunt-voltage decoding -/

/-- A value that fits a signed integer of `bits` bits is not changed by wrapping. -/
theorem wrapSigned_of_fits (bits : Nat) (x : Int) (hb : 1 ≤ bits)
    (hlo : -(2 ^ (bits - 1) : Int) ≤ x) (hhi : x < 2 ^ (bits - 1)) :
    wrapSigned bits x = x := by
  have hpow : (2 : Int) ^ bits = 2 * 2 ^ (bits - 1) := by
    rw [← pow_succ', Nat.sub_add_cancel hb]
  unfold wrapSigned
  rw [hpow, Int.emod_eq_of_lt (by linarith) (by linarith)]
  ring

/-- Half the range of the target's `int` is at least `2 ^ 15`. -/
theorem Target.half_ge (t : Target) : (32768 : Int) ≤ 2 ^ (t.intBits - 1) := by
  have h : 15 ≤ t.intBits - 1 := Nat.le_sub_one_of_lt t.intBits_ge
  calc (32768 : Int) = 2 ^ 15 := by norm_num
    _ ≤ 2 ^ (t.intBits - 1) := pow_le_pow_right₀ (by norm_num) h

/-- With an `int` wider than 16 bits, half its range is at least `2 ^ 16`. -/
theorem Target.half_ge_of_wide (t : Target) (hw : t.intBits ≠ 16) :
    (65536 : Int) ≤ 2 ^ (t.intBits - 1) := by
  have h16 := t.intBits_ge
  have h : 16 ≤ t.intBits - 1 := by omega
  calc (65536 : Int) = 2 ^ 16 := by norm_num
    _ ≤ 2 ^ (t.intBits - 1) := pow_le_pow_right₀ (by norm_num) h

/-- The test `shuntVoltageReg & 0x8000` of `read` is the test of bit 15. -/
theorem and_0x8000_ne_zero_iff (n : Nat) : n &&& 0x8000 ≠ 0 ↔ 32768 ≤ n % 65536 := by
  have hbit : n &&& 0x8000 ≠ 0 ↔ n.testBit 15 = true := by
    constructor
    · intro hne
      by_contra hb
      apply hne
      apply Nat.eq_of_testBit_eq
      intro i
      have h2 : (0x8000 : Nat) = 2 ^ 15 := by norm_num
      rw [Nat.testBit_and, h2, Nat.testBit_two_pow, Nat.zero_testBit]
      by_cases hi : 15 = i
      · subst hi
        simp [Bool.eq_false_iff.mpr hb]
      · simp [hi]
    · intro hb hz
      have h2 : (0x8000 : Nat) = 2 ^ 15 := by norm_num
      have := Nat.testBit_and n 0x8000 15
      rw [hz, Nat.zero_testBit, hb, h2, Nat.testBit_two_pow_self] at this
      simp at this
  rw [hbit, Nat.testBit_to_div_mod]
  simp only [decide_eq_true_eq]
  norm_num
  omega

/-- The conversion to `int16_t` of the operand `(~reg) + 1`, for a register value with
bit 15 set: `65536 - reg`, except that `32768` becomes `-32768`. -/
theorem toInt16_complementPlusOne (t : Target) (reg : Nat)
    (hlo : 32768 ≤ reg) (hhi : reg < 65536) :
    toInt16 (complementPlusOne t reg)
      = if reg = 32768 then -32768 else 65536 - (reg : Int) := by
  unfold toInt16 wrapSigned complementPlusOne
  split <;> split <;> norm_num <;> omega

/-- The integer `read` computes from a shunt-voltage register value with bit 15 set. -/
theorem shuntVoltageCounts_negative (t : Target) (reg : Nat)
    (hlo : 32768 < reg) (hhi : reg < 65536) :
    shuntVoltageCounts t reg = (reg : Int) - 65536 := by
  have hbit : reg &&& 0x8000 ≠ 0 := (and_0x8000_ne_zero_iff reg).mpr (by omega)
  have hne : reg ≠ 32768 := by omega
  have hhalf := t.half_ge
  have hbits : 1 ≤ t.intBits := le_trans (by norm_num) t.intBits_ge
  unfold shuntVoltageCounts
  rw [if_pos hbit, toInt16_complementPlusOne t reg (le_of_lt hlo) hhi, if_neg hne,
    wrapSigned_of_fits _ _ hbits (by omega) (by omega)]
  ring

/-- The integer `read` computes from the shunt-voltage register value `0x8000`:
`-32768` with a 16-bit `int`, `+32768` with a wider one. -/
theorem shuntVoltageCounts_0x8000 (t : Target) :
    shuntVoltageCounts t 0x8000 = if t.intBits = 16 then -32768 else 32768 := by
  have hbit : (0x8000 : Nat) &&& 0x8000 ≠ 0 := by decide
  have hbits : 1 ≤ t.intBits := le_trans (by norm_num) t.intBits_ge
  unfold shuntVoltageCounts
  rw [if_pos hbit, toInt16_complementPlusOne t 0x8000 (by norm_num) (by norm_num)]
  by_cases hw : t.intBits = 16
  · rw [hw]
    simp [wrapSigned]
  · have hhalf := t.half_ge_of_wide hw
    rw [if_neg hw, wrapSigned_of_fits _ _ hbits (by norm_num; linarith) (by norm_num; linarith)]
    norm_num

/-- The decoding in `read` inverts the two's-complement encoding on `[-32767, 32767]`,
on every target. -/
theorem shuntVoltageCounts_encodeInt16 (t : Target) (v : Int)
    (hlo : -32767 ≤ v) (hhi : v ≤ 32767) :
    shuntVoltageCounts t (encodeInt16 v) = v := by
  by_cases hv : 0 ≤ v
  · have he : encodeInt16 v = v.toNat := by
      unfold encodeInt16 toUint16
      rw [Int.emod_eq_of_lt hv (by linarith)]
    have hn : v.toNat < 32768 := by omega
    have hbit : ¬ (v.toNat &&& 0x8000 ≠ 0) := by
      rw [and_0x8000_ne_zero_iff]
      omega
    unfold shuntVoltageCounts
    rw [he, if_neg hbit]
    omega
  · have he : encodeInt16 v = (v + 65536).toNat := by
      unfold encodeInt16 toUint16
      congr 1
      omega
    rw [he, shuntVoltageCounts_negative t _ (by omega) (by omega)]
    omega

/-- With a 16-bit `int` and wrapping overflow, the decoding in `read` inverts the
encoding on all of `[-32768, 32767]`. -/
theorem shuntVoltageCounts_encodeInt16_avr (v : Int)
    (hlo : -32768 ≤ v) (hhi : v ≤ 32767) :
    shuntVoltageCounts Target.avr (encodeInt16 v) = v := by
  by_cases hv : v = -32768
  · subst hv
    decide
  · exact shuntVoltageCounts_encodeInt16 Target.avr v (by omega) hhi

/-- C2: the register value `0x8000` is the two's-complement encoding of `-32768`, and
on a target with a 32-bit `int` the integer `read` computes from it is `+32768`, so a
successful `read` stores `shuntVoltage = 32768 / 100` where the round trip asks for
`-32768 / 100`. -/
theorem shuntVoltageCounts_min_arm :
    encodeInt16 (-32768) = 0x8000 ∧
    shuntVoltageCounts Target.arm (encodeInt16 (-32768)) = 32768 ∧
    (INA219.read Target.arm World.fresh (ReadReply.ok 0x8000) (ReadReply.ok 0)).2 = true ∧
    (INA219.read Target.arm World.fresh (ReadReply.ok 0x8000)
        (ReadReply.ok 0)).1.dev.shuntVoltage = 32768 / 100 := by
  refine ⟨by decide, by decide, by decide, ?_⟩
  rw [read_ok_dev Target.arm World.fresh _ _ rfl rfl rfl,
    combineBytes_ok Target.arm 0x8000 (by norm_num), shuntVoltageCounts_0x8000]
  simp [Target.arm]

/-- C5, the claim as stated fails: with the shunt-voltage register reading `0x8000`, a
successful `read` leaves a `shuntVoltage` that is not zero, on the 16-bit target and on
the 32-bit target. -/
theorem shuntVoltage_0x8000_ne_zero :
    (INA219.read Target.avr World.fresh (ReadReply.ok 0x8000) (ReadReply.ok 0)).2 = true ∧
    INA219.combineBytes Target.avr (ReadReply.ok 0x8000).first (ReadReply.ok 0x8000).second
      = 0x8000 ∧
    (INA219.read Target.avr World.fresh (ReadReply.ok 0x8000)
        (ReadReply.ok 0)).1.dev.shuntVoltage ≠ 0 ∧
    (INA219.read Target.arm World.fresh (ReadReply.ok 0x8000)
        (ReadReply.ok 0)).1.dev.shuntVoltage ≠ 0 := by
  refine ⟨by decide, by decide, ?_, ?_⟩
  · rw [read_ok_dev Target.avr World.fresh _ _ rfl rfl rfl,
      combineBytes_ok Target.avr 0x8000 (by norm_num), shuntVoltageCounts_0x8000]
    simp [Target.avr]
  · rw [read_ok_dev Target.arm World.fresh _ _ rfl rfl rfl,
      combineBytes_ok Target.arm 0x8000 (by norm_num), shuntVoltageCounts_0x8000]
    simp [Target.arm]

/-- C5 as amended: when the shunt-voltage register reads `0x8000` in a successful
`read`, the decoded `shuntVoltage` has magnitude `32768 / 100` mV on every target; it
is not zero. -/
theorem read_shuntVoltage_0x8000 (t : Target) (s : World) (r1 r2 : ReadReply)
    (h : (INA219.read t s r1 r2).2 = true)
    (hreg : INA219.combineBytes t r1.first r1.second = 0x8000) :
    |(INA219.read t s r1 r2).1.dev.shuntVoltage| = 32768 / 100 ∧
    (INA219.read t s r1 r2).1.dev.shuntVoltage ≠ 0 := by
  obtain ⟨hp, h1, h2⟩ := read_succeeds t s r1 r2 h
  rw [read_ok_dev t s r1 r2 hp h1 h2]
  simp only [hreg, shuntVoltageCounts_0x8000]
  by_cases hw : t.intBits = 16
  · rw [if_pos hw]
    norm_num [abs_of_neg]
  · rw [if_neg hw]
    norm_num [abs_of_pos]

/-- An instance of `read_shuntVoltage_0x8000` on the 16-bit target. -/
theorem read_shuntVoltage_0x8000_witness :
    (INA219.read Target.avr World.fresh (ReadReply.ok 0x8000) (ReadReply.ok 0)).2 = true ∧
    INA219.combineBytes Target.avr (ReadReply.ok 0x8000).first (ReadReply.ok 0x8000).second
      = 0x8000 ∧
    |(INA219.read Target.avr World.fresh (ReadReply.ok 0x8000)
        (ReadReply.ok 0)).1.dev.shuntVoltage| = 32768 / 100 ∧
    (INA219.read Target.avr World.fresh (ReadReply.ok 0x8000)
        (ReadReply.ok 0)).1.dev.shuntVoltage ≠ 0 :=
  ⟨by decide, by decide,
    read_shuntVoltage_0x8000 Target.avr World.fresh (ReadReply.ok 0x8000) (ReadReply.ok 0)
      (by decide) (by decide)⟩

/-! ## The transport status -/

/-- After `registerRead`, `getI2CStatus` is the code of the address transmission. -/
theorem getI2CStatus_registerRead (t : Target) (s : World) (reg : Nat) (r : ReadReply) :
    INA219.getI2CStatus (INA219.registerRead t s reg r).1.dev = r.status.val := rfl

/-- After `registerWrite`, `getI2CStatus` is 1 when the transmission ended with code 0
and 0 when it ended with any other code. -/
theorem getI2CStatus_registerWrite (s : World) (reg val : Nat) (c : Fin 256) :
    INA219.getI2CStatus (INA219.registerWrite s reg val c).dev = if c = 0 then 1 else 0 := by
  have hc : c.val = 0 ↔ c = 0 := ⟨fun e => Fin.ext e, fun e => by rw [e]; rfl⟩
  simp [INA219.getI2CStatus, INA219.registerWrite, hc]

/-- C6: after `registerWrite(INA219_REG_CONFIG, REG_CONFIG_VALUE)`, and after `powerUp`
and `powerDown`, `getI2CStatus` is 1 when the write transmission ended with code 0
(success) and 0 when it ended with code 2 (address not acknowledged): it is not the
code of the transaction, and it is 0 after a write that failed. -/
theorem getI2CStatus_after_write :
    INA219.getI2CStatus
      (INA219.registerWrite World.fresh INA219_REG_CONFIG REG_CONFIG_VALUE 0).dev = 1 ∧
    INA219.getI2CStatus
      (INA219.registerWrite World.fresh INA219_REG_CONFIG REG_CONFIG_VALUE 2).dev = 0 ∧
    INA219.getI2CStatus (INA219.powerUp World.fresh 0).1.dev = 1 ∧
    INA219.getI2CStatus (INA219.powerUp World.fresh 2).1.dev = 0 ∧
    INA219.getI2CStatus (INA219.powerDown World.fresh 0).1.dev = 1 ∧
    INA219.getI2CStatus (INA219.powerDown World.fresh 2).1.dev = 0 := by
  decide

/-! ## The power state and `available` -/

/-- `powerDown` sets the flag and keeps the snapshot. -/
theorem powerDown_dev (s : World) (c : Fin 256) :
    (INA219.powerDown s c).1.dev =
      { s.dev with _powerDown := true, _i2cStatus := if c.val = 0 then 1 else 0 } := by
  simp [INA219.powerDown, INA219.registerWrite]

/-- From a state flagged powered-down, calls other than `powerUp` keep the flag set and
keep `available`. -/
theorem run_poweredDown (t : Target) (ops : List Op) (s : World)
    (hp : s.dev._powerDown = true) (hops : ∀ op ∈ ops, op.isPowerUp = false) :
    (run t s ops).dev._powerDown = true ∧ (run t s ops).dev.available = s.dev.available := by
  induction ops generalizing s with
  | nil => exact ⟨hp, rfl⟩
  | cons op rest ih =>
    have hrest : ∀ o ∈ rest, o.isPowerUp = false :=
      fun o ho => hops o (List.mem_cons_of_mem _ ho)
    have hop : op.isPowerUp = false := hops op (List.mem_cons_self _ _)
    show (run t (step t s op) rest).dev._powerDown = true ∧
      (run t (step t s op) rest).dev.available = s.dev.available
    cases op with
    | powerUp c => simp [Op.isPowerUp] at hop
    | powerDown c =>
      have hs : (step t s (Op.powerDown c)).dev._powerDown = true := by
        simp [step, powerDown_dev]
      have ha : (step t s (Op.powerDown c)).dev.available = s.dev.available := by
        simp [step, powerDown_dev]
      rw [← ha]
      exact ih _ hs hrest
    | read r1 r2 =>
      have hs : step t s (Op.read r1 r2) = s := by
        simp [step, read_poweredDown t s r1 r2 hp]
      rw [hs]
      exact ih s hp hrest

/-- C10, the claim as stated fails: after `powerUp`, a successful `read` and
`powerDown`, the device is flagged powered-down and `available` is true. -/
theorem available_true_while_poweredDown :
    (run Target.avr (INA219.powerUp World.fresh 0).1
        [Op.read (ReadReply.ok 0x0032) (ReadReply.ok 0x0C38),
         Op.powerDown 0]).dev._powerDown = true ∧
    (run Target.avr (INA219.powerUp World.fresh 0).1
        [Op.read (ReadReply.ok 0x0032) (ReadReply.ok 0x0C38),
         Op.powerDown 0]).dev.available = true := by
  decide

/-- From any state, after `powerDown` and then any sequence of `powerDown` and `read`
calls under any transport behaviour, the device is flagged powered-down and `available`
has the value it had when `powerDown` was called. -/
theorem available_kept_while_poweredDown (t : Target) (s : World) (c : Fin 256)
    (ops : List Op) (hops : ∀ op ∈ ops, op.isPowerUp = false) :
    (run t (INA219.powerDown s c).1 ops).dev._powerDown = true ∧
    (run t (INA219.powerDown s c).1 ops).dev.available = s.dev.available := by
  have hp : (INA219.powerDown s c).1.dev._powerDown = true := by simp [powerDown_dev]
  have ha : (INA219.powerDown s c).1.dev.available = s.dev.available := by
    simp [powerDown_dev]
  rw [← ha]
  exact run_poweredDown t ops _ hp hops

/-- An instance of `available_kept_while_poweredDown`: `available` is true when
`powerDown` is called and stays true. -/
theorem available_kept_while_poweredDown_witness :
    (∀ op ∈ [Op.read (ReadReply.ok 0x0100) (ReadReply.ok 0x0C38), Op.powerDown 3],
        op.isPowerUp = false) ∧
    World.measured.dev.available = true ∧
    (run Target.avr (INA219.powerDown World.measured 0).1
        [Op.read (ReadReply.ok 0x0100) (ReadReply.ok 0x0C38),
         Op.powerDown 3]).dev._powerDown = true ∧
    (run Target.avr (INA219.powerDown World.measured 0).1
        [Op.read (ReadReply.ok 0x0100) (ReadReply.ok 0x0C38),
         Op.powerDown 3]).dev.available = World.measured.dev.available :=
  ⟨by decide, by decide,
    available_kept_while_poweredDown Target.avr World.measured 0
      [Op.read (ReadReply.ok 0x0100) (ReadReply.ok 0x0C38), Op.powerDown 3] (by decide)⟩

/-- `powerUp` clears the snapshot and the flag. -/
theorem powerUp_dev (s : World) (c : Fin 256) :
    (INA219.powerUp s c).1.dev =
      { INA219.clear s.dev with
        _powerDown := false, _i2cStatus := if c.val = 0 then 1 else 0 } := by
  simp [INA219.powerUp, INA219.registerWrite]

/-- C11: for every prior state and every result of the transmission, `powerDown` leaves
`busVoltage`, `shuntVoltage`, `current`, `power`, `overflow` and `available` as they
were, sets the power-down flag, and makes exactly one call on `Wire`: the transmission
of the register address `0x00` followed by `0x39`, `0x98`, the value `0x3998`. -/
theorem powerDown_keeps_snapshot (s : World) (c : Fin 256) :
    (INA219.powerDown s c).1.dev.busVoltage = s.dev.busVoltage ∧
    (INA219.powerDown s c).1.dev.shuntVoltage = s.dev.shuntVoltage ∧
    (INA219.powerDown s c).1.dev.current = s.dev.current ∧
    (INA219.powerDown s c).1.dev.power = s.dev.power ∧
    (INA219.powerDown s c).1.dev.overflow = s.dev.overflow ∧
    (INA219.powerDown s c).1.dev.available = s.dev.available ∧
    (INA219.powerDown s c).1.dev._powerDown = true ∧
    (INA219.powerDown s c).1.wire
      = s.wire ++ [WireCall.transmission s.dev._i2cAddress
          (INA219.writeBuffer INA219_REG_CONFIG 0x3998) true] ∧
    INA219.writeBuffer INA219_REG_CONFIG 0x3998 = [0x00, 0x3998 >>> 8, 0x3998 &&& 0xFF] := by
  rw [powerDown_dev]
  refine ⟨rfl, rfl, rfl, rfl, rfl, rfl, rfl, ?_, by decide⟩
  simp [INA219.powerDown, INA219.registerWrite]

/-- C15: whatever the prior state and the result `c` of the configuration write:
after `powerDown` the flag is set, and the next `read` returns false and returns the
state unchanged, no call on `Wire` added; after `powerUp` the flag is clear, and the
next `read` sends the address of register `0x01` on the bus and returns true exactly
when both register reads end with status 0. -/
theorem power_flag_unconditional (t : Target) (s : World) (c : Fin 256)
    (r1 r2 : ReadReply) :
    (INA219.powerDown s c).1.dev._powerDown = true ∧
    INA219.read t (INA219.powerDown s c).1 r1 r2 = ((INA219.powerDown s c).1, false) ∧
    (INA219.powerUp s c).1.dev._powerDown = false ∧
    (∃ rest, (INA219.read t (INA219.powerUp s c).1 r1 r2).1.wire
      = (INA219.powerUp s c).1.wire
          ++ [WireCall.transmission s.dev._i2cAddress [0x01] false,
              WireCall.requestFrom s.dev._i2cAddress 2] ++ rest) ∧
    ((INA219.read t (INA219.powerUp s c).1 r1 r2).2 = true
      ↔ (r1.status = 0 ∧ r2.status = 0)) := by
  have hd : (INA219.powerDown s c).1.dev._powerDown = true := by simp [powerDown_dev]
  have hu : (INA219.powerUp s c).1.dev._powerDown = false := by simp [powerUp_dev]
  have ha : (INA219.powerUp s c).1.dev._i2cAddress = s.dev._i2cAddress := by
    simp [powerUp_dev, INA219.clear]
  refine ⟨hd, read_poweredDown t _ r1 r2 hd, hu, ?_, ?_⟩
  · by_cases h1 : r1.status = 0
    · refine ⟨[WireCall.transmission s.dev._i2cAddress [0x02] false,
        WireCall.requestFrom s.dev._i2cAddress 2], ?_⟩
      rw [read_wire t _ r1 r2 hu h1, ha]
      simp [INA219_REG_SHUNTVOLTAGE, INA219_REG_BUSVOLTAGE]
    · refine ⟨[], ?_⟩
      rw [read_first_failed t _ r1 r2 hu h1]
      simp [afterFirstRead, INA219.registerRead, INA219.clear, ha, INA219_REG_SHUNTVOLTAGE]
  · rw [read_result, decide_eq_true_iff]
    simp [hu]

/-! ## The configuration words -/

/-- C16: the word `REG_CONFIG_VALUE` that `powerUp` writes has operating-mode bits 0..2
equal to 7 (`INA219_CONFIG_MODE_SHUNT_BUS_CNT`) and gain field equal to
`INA219_CONFIG_GAIN_8`; the word `0x3998` that `powerDown` writes has operating-mode
bits equal to `INA219_CONFIG_MODE_POWER_DOWN`, and the two words agree on every bit
outside `INA219_CONFIG_MODE_MASK`. -/
theorem config_words (s : World) (c : Fin 256) :
    (INA219.powerUp s c).1.wire
      = s.wire ++ [WireCall.transmission s.dev._i2cAddress
          (INA219.writeBuffer INA219_REG_CONFIG REG_CONFIG_VALUE) true] ∧
    (INA219.powerDown s c).1.wire
      = s.wire ++ [WireCall.transmission s.dev._i2cAddress
          (INA219.writeBuffer INA219_REG_CONFIG 0x3998) true] ∧
    REG_CONFIG_VALUE = 0x399F ∧
    REG_CONFIG_VALUE &&& INA219_CONFIG_MODE_MASK = 7 ∧
    REG_CONFIG_VALUE &&& INA219_CONFIG_MODE_MASK = INA219_CONFIG_MODE_SHUNT_BUS_CNT ∧
    REG_CONFIG_VALUE &&& INA219_CONFIG_GAIN_MASK = INA219_CONFIG_GAIN_8 ∧
    0x3998 &&& INA219_CONFIG_MODE_MASK = INA219_CONFIG_MODE_POWER_DOWN ∧
    (0x3998 ^^^ REG_CONFIG_VALUE) &&& (0xFFFF ^^^ INA219_CONFIG_MODE_MASK) = 0 ∧
    0x3998 >>> 3 = REG_CONFIG_VALUE >>> 3 := by
  refine ⟨?_, ?_, by decide, by decide, by decide, by decide, by decide, by decide,
    by decide⟩
  · simp [INA219.powerUp, INA219.registerWrite, INA219.clear]
  · simp [INA219.powerDown, INA219.registerWrite]

/-- C18: for every setting `adc` in 0..15 both macros give 0, because they mask `adc`
with `0x0780` before shifting; so for `adc = INA219_CONFIG_xADC_12B = 3` the bus-ADC
field and the shunt-ADC field read back 0, not 3. -/
theorem config_adc_macros_zero :
    (∀ adc : Fin 16, INA219_CONFIG_BADC adc.val = 0 ∧ INA219_CONFIG_SADC adc.val = 0) ∧
    (INA219_CONFIG_BADC INA219_CONFIG_xADC_12B &&& INA219_CONFIG_BADC_MASK) >>> 7 = 0 ∧
    (INA219_CONFIG_SADC INA219_CONFIG_xADC_12B &&& INA219_CONFIG_SADC_MASK) >>> 3 = 0 ∧
    INA219_CONFIG_xADC_12B = 3 := by
  decide

/-! ## A worked conversion, the register encoding, and the bus-voltage range -/

/-- C13: with `shuntResistance = 0.1`, a successful `read` in which the shunt-voltage
register is `0x0032` and the bus-voltage register is `0x0C38` gives
`shuntVoltage = 0.50`, `busVoltage = 1.564`, `overflow = false`, `current = 5.0`,
`power = 7.82` and `available = true`, in exact arithmetic, on every target. -/
theorem read_scenario (t : Target) (s : World) (r1 r2 : ReadReply)
    (hp : s.dev._powerDown = false) (hR : s.dev._shuntResistor = 1 / 10)
    (h1 : r1.status = 0) (h2 : r2.status = 0)
    (hs : INA219.combineBytes t r1.first r1.second = 0x0032)
    (hb : INA219.combineBytes t r2.first r2.second = 0x0C38) :
    (INA219.read t s r1 r2).2 = true ∧
    (INA219.read t s r1 r2).1.dev.shuntVoltage = 50 / 100 ∧
    (INA219.read t s r1 r2).1.dev.busVoltage = 1564 / 1000 ∧
    (INA219.read t s r1 r2).1.dev.overflow = false ∧
    (INA219.read t s r1 r2).1.dev.current = 5 ∧
    (INA219.read t s r1 r2).1.dev.power = 782 / 100 ∧
    (INA219.read t s r1 r2).1.dev.available = true := by
  have hsv : shuntVoltageCounts t 0x0032 = 50 := by
    unfold shuntVoltageCounts
    rw [if_neg (by decide)]
    rfl
  have hbv : busVoltageCounts 0x0C38 = 1564 := by decide
  have hov : decide ((0x0C38 : Nat) &&& 0x01 ≠ 0) = false := by decide
  refine ⟨?_, ?_⟩
  · rw [read_result]
    simp [hp, h1, h2]
  · rw [read_ok_dev t s r1 r2 hp h1 h2]
    simp only [hs, hb, hR, hsv, hbv, hov]
    norm_num

/-- An instance of `read_scenario`: the default driver state on AVR. -/
theorem read_scenario_witness :
    World.fresh.dev._powerDown = false ∧
    World.fresh.dev._shuntResistor = 1 / 10 ∧
    (INA219.read Target.avr World.fresh (ReadReply.ok 0x0032) (ReadReply.ok 0x0C38)).2
      = true ∧
    (INA219.read Target.avr World.fresh (ReadReply.ok 0x0032)
        (ReadReply.ok 0x0C38)).1.dev.shuntVoltage = 50 / 100 ∧
    (INA219.read Target.avr World.fresh (ReadReply.ok 0x0032)
        (ReadReply.ok 0x0C38)).1.dev.busVoltage = 1564 / 1000 ∧
    (INA219.read Target.avr World.fresh (ReadReply.ok 0x0032)
        (ReadReply.ok 0x0C38)).1.dev.overflow = false ∧
    (INA219.read Target.avr World.fresh (ReadReply.ok 0x0032)
        (ReadReply.ok 0x0C38)).1.dev.current = 5 ∧
    (INA219.read Target.avr World.fresh (ReadReply.ok 0x0032)
        (ReadReply.ok 0x0C38)).1.dev.power = 782 / 100 ∧
    (INA219.read Target.avr World.fresh (ReadReply.ok 0x0032)
        (ReadReply.ok 0x0C38)).1.dev.available = true :=
  ⟨by decide, by norm_num [World.fresh, INA219_SHUNT_RESISTOR],
    read_scenario Target.avr World.fresh (ReadReply.ok 0x0032) (ReadReply.ok 0x0C38)
      (by decide) (by norm_num [World.fresh, INA219_SHUNT_RESISTOR]) (by decide) (by decide)
      (by decide) (by decide)⟩

/-- The bytes of `registerWrite` for arguments in range. -/
theorem writeBuffer_of_lt (reg val : Nat) (hreg : reg < 256) (hval : val < 65536) :
    INA219.writeBuffer reg val = [reg, val >>> 8, val &&& 0xFF] := by
  have hhi : val >>> 8 < 256 := by
    rw [Nat.shiftRight_eq_div_pow]
    omega
  have hlo : val &&& 0xFF < 256 := Nat.and_lt_two_pow val (n := 8) (by norm_num)
  unfold INA219.writeBuffer
  rw [Nat.mod_eq_of_lt hreg, Nat.mod_eq_of_lt hval, Nat.mod_eq_of_lt hhi,
    Nat.mod_eq_of_lt hlo]

/-- Two bytes combined the way `registerRead` combines them: `first * 256 + second`. -/
theorem combineBytes_some (t : Target) (hi lo : Fin 256) :
    INA219.combineBytes t (some hi) (some lo) = hi.val * 256 + lo.val := by
  have hw : 65536 ≤ 2 ^ t.intBits :=
    le_trans (by norm_num) (Nat.pow_le_pow_right (by norm_num) t.intBits_ge)
  have hlo : lo.val < 2 ^ 8 := lo.isLt
  have hhi : hi.val < 256 := hi.isLt
  have hs : hi.val <<< 8 = 2 ^ 8 * hi.val := by rw [Nat.shiftLeft_eq, Nat.mul_comm]
  have hlt : hi.val <<< 8 < 2 ^ t.intBits := by omega
  simp only [INA219.combineBytes, wireReadBits]
  rw [Nat.mod_eq_of_lt hlt, hs, ← Nat.mul_add_lt_is_or hlo]
  omega

/-- C14: for every register address `reg` and every 16-bit value `val`,
`registerWrite` makes one transmission of exactly the three bytes
`[reg, val >> 8, val & 0xFF]`, both value bytes are bytes, and two bytes equal to them
combined the way `registerRead` combines them, `(first << 8) | second`, give `val`, on
every target. -/
theorem registerWrite_registerRead_inverse (t : Target) (s : World) (reg val : Nat)
    (c : Fin 256) (hreg : reg < 256) (hval : val < 65536) :
    (INA219.registerWrite s reg val c).wire
      = s.wire ++ [WireCall.transmission s.dev._i2cAddress
          [reg, val >>> 8, val &&& 0xFF] true] ∧
    val >>> 8 < 256 ∧ val &&& 0xFF < 256 ∧
    (∀ hi lo : Fin 256, hi.val = val >>> 8 → lo.val = val &&& 0xFF →
      INA219.combineBytes t (some hi) (some lo) = val) := by
  have hhi : val >>> 8 < 256 := by
    rw [Nat.shiftRight_eq_div_pow]
    omega
  have hlo : val &&& 0xFF < 256 := Nat.and_lt_two_pow val (n := 8) (by norm_num)
  refine ⟨?_, hhi, hlo, ?_⟩
  · simp [INA219.registerWrite, writeBuffer_of_lt reg val hreg hval]
  · intro hi lo hhv hlv
    have hmod : val &&& 0xFF = val % 2 ^ 8 := Nat.and_pow_two_sub_one_eq_mod val 8
    rw [combineBytes_some, hhv, hlv, hmod, Nat.shiftRight_eq_div_pow]
    omega

/-- An instance of `registerWrite_registerRead_inverse`: the power-up word written to
the configuration register. -/
theorem registerWrite_registerRead_inverse_witness :
    INA219_REG_CONFIG < 256 ∧ REG_CONFIG_VALUE < 65536 ∧
    (INA219.registerWrite World.fresh INA219_REG_CONFIG REG_CONFIG_VALUE 0).wire
      = World.fresh.wire ++ [WireCall.transmission World.fresh.dev._i2cAddress
          [INA219_REG_CONFIG, REG_CONFIG_VALUE >>> 8, REG_CONFIG_VALUE &&& 0xFF] true] ∧
    REG_CONFIG_VALUE >>> 8 < 256 ∧ REG_CONFIG_VALUE &&& 0xFF < 256 ∧
    (∀ hi lo : Fin 256, hi.val = REG_CONFIG_VALUE >>> 8 →
      lo.val = REG_CONFIG_VALUE &&& 0xFF →
      INA219.combineBytes Target.avr (some hi) (some lo) = REG_CONFIG_VALUE) :=
  ⟨by decide, by decide,
    registerWrite_registerRead_inverse Target.avr World.fresh INA219_REG_CONFIG
      REG_CONFIG_VALUE 0 (by decide) (by decide)⟩

/-- The bus-voltage members after a successful `read`, in terms of the register value. -/
theorem read_ok_bus (t : Target) (s : World) (r1 r2 : ReadReply)
    (h : (INA219.read t s r1 r2).2 = true) :
    (INA219.read t s r1 r2).1.dev.busVoltage
      = (busVoltageCounts (INA219.combineBytes t r2.first r2.second) : ℚ) / 1000 ∧
    (INA219.read t s r1 r2).1.dev.overflow
      = decide (INA219.combineBytes t r2.first r2.second &&& 0x01 ≠ 0) := by
  obtain ⟨hp, h1, h2⟩ := read_succeeds t s r1 r2 h
  rw [read_ok_dev t s r1 r2 hp h1 h2]
  exact ⟨rfl, rfl⟩

/-- C17: after a successful `read` whose bus-voltage register has the overflow bit
clear, `0 ≤ busVoltage ≤ 32764 / 1000`, below the saturated `65535 / 1000`; and after
any successful `read`, `busVoltage = 65535 / 1000` exactly when `overflow` is true. -/
theorem read_busVoltage_range (t : Target) (s : World) (r1 r2 : ReadReply)
    (h : (INA219.read t s r1 r2).2 = true) :
    (Nat.testBit (INA219.combineBytes t r2.first r2.second) 0 = false →
        0 ≤ (INA219.read t s r1 r2).1.dev.busVoltage ∧
        (INA219.read t s r1 r2).1.dev.busVoltage ≤ 32764 / 1000 ∧
        (INA219.read t s r1 r2).1.dev.busVoltage < 65535 / 1000) ∧
    ((INA219.read t s r1 r2).1.dev.busVoltage = 65535 / 1000
      ↔ (INA219.read t s r1 r2).1.dev.overflow = true) := by
  obtain ⟨hbv, hov⟩ := read_ok_bus t s r1 r2 h
  have hraw : INA219.combineBytes t r2.first r2.second < 65536 := by
    unfold INA219.combineBytes
    exact Nat.mod_lt _ (by norm_num)
  have hcounts : (INA219.combineBytes t r2.first r2.second >>> 3) * 4 ≤ 32764 := by
    rw [Nat.shiftRight_eq_div_pow]
    omega
  have hq : (((INA219.combineBytes t r2.first r2.second >>> 3) * 4 : Nat) : ℚ) ≤ 32764 := by
    exact_mod_cast hcounts
  have hq0 : (0 : ℚ) ≤ (((INA219.combineBytes t r2.first r2.second >>> 3) * 4 : Nat) : ℚ) :=
    Nat.cast_nonneg _
  rw [hbv, hov]
  by_cases hb : INA219.combineBytes t r2.first r2.second &&& 0x01 ≠ 0
  · have hbit := (and_one_ne_zero_iff _).mp hb
    simp only [busVoltageCounts, if_pos hb, decide_eq_true hb, hbit]
    norm_num
  · simp only [busVoltageCounts, if_neg hb, decide_eq_false hb]
    refine ⟨fun _ => ⟨by positivity, by linarith, by linarith⟩, ?_⟩
    constructor
    · intro he
      linarith
    · intro hf
      exact absurd hf (by simp)

/-- An instance of `read_busVoltage_range`: the largest bus-voltage register value with
the overflow bit clear, `0xFFFE`. -/
theorem read_busVoltage_range_witness :
    (INA219.read Target.arm World.fresh (ReadReply.ok 0x0032) (ReadReply.ok 0xFFFE)).2
      = true ∧
    (Nat.testBit (INA219.combineBytes Target.arm (ReadReply.ok 0xFFFE).first
        (ReadReply.ok 0xFFFE).second) 0 = false →
        0 ≤ (INA219.read Target.arm World.fresh (ReadReply.ok 0x0032)
              (ReadReply.ok 0xFFFE)).1.dev.busVoltage ∧
        (INA219.read Target.arm World.fresh (ReadReply.ok 0x0032)
            (ReadReply.ok 0xFFFE)).1.dev.busVoltage ≤ 32764 / 1000 ∧
        (INA219.read Target.arm World.fresh (ReadReply.ok 0x0032)
            (ReadReply.ok 0xFFFE)).1.dev.busVoltage < 65535 / 1000) ∧
    ((INA219.read Target.arm World.fresh (ReadReply.ok 0x0032)
          (ReadReply.ok 0xFFFE)).1.dev.busVoltage = 65535 / 1000
      ↔ (INA219.read Target.arm World.fresh (ReadReply.ok 0x0032)
          (ReadReply.ok 0xFFFE)).1.dev.overflow = true) :=
  ⟨by decide,
    read_busVoltage_range Target.arm World.fresh (ReadReply.ok 0x0032) (ReadReply.ok 0xFFFE)
      (by decide)⟩

/-! ## The Measurement Snapshot over sequences of calls -/

/-- Either the snapshot comes from one successful conversion, or its four values are
zero and `available` is false. -/
theorem step_consistent (t : Target) (s : World) (op : Op)
    (h : (s.dev.available = true ∧ fromConversion t s.dev) ∨ valuesCleared s.dev) :
    ((step t s op).dev.available = true ∧ fromConversion t (step t s op).dev) ∨
      valuesCleared (step t s op).dev := by
  cases op with
  | powerUp c =>
    right
    simp [step, powerUp_dev, INA219.clear, valuesCleared]
  | powerDown c =>
    have hd : (step t s (Op.powerDown c)).dev =
        { s.dev with _powerDown := true, _i2cStatus := if c.val = 0 then 1 else 0 } := by
      simp [step, powerDown_dev]
    rw [hd]
    rcases h with ⟨ha, s0, r1, r2, hR, hok, hsame⟩ | hcl
    · exact Or.inl ⟨ha, s0, r1, r2, hR, hok, hsame⟩
    · exact Or.inr hcl
  | read r1 r2 =>
    show ((INA219.read t s r1 r2).1.dev.available = true ∧
        fromConversion t (INA219.read t s r1 r2).1.dev) ∨
      valuesCleared (INA219.read t s r1 r2).1.dev
    cases hp : s.dev._powerDown
    · by_cases h1 : r1.status = 0
      · by_cases h2 : r2.status = 0
        · left
          have hok : (INA219.read t s r1 r2).2 = true := by
            rw [read_result]
            simp [hp, h1, h2]
          refine ⟨?_, s, r1, r2, ?_, hok, ⟨rfl, rfl, rfl, rfl, rfl, rfl⟩⟩
          · rw [read_ok_dev t s r1 r2 hp h1 h2]
          · rw [read_ok_dev t s r1 r2 hp h1 h2]
        · right
          rw [read_second_failed t s r1 r2 hp h1 h2]
          simp [afterSecondRead, afterFirstRead, INA219.registerRead, INA219.clear,
            valuesCleared]
      · right
        rw [read_first_failed t s r1 r2 hp h1]
        simp [afterFirstRead, INA219.registerRead, INA219.clear, valuesCleared]
    · rw [read_poweredDown t s r1 r2 hp]
      exact h

/-- In every state reachable from a `powerUp`, the snapshot either comes from one
successful conversion with `available` true, or has its four values zero and
`available` false; `overflow` is not covered in the second case. -/
theorem snapshot_consistent_except_overflow (t : Target) (s0 : World) (c : Fin 256)
    (ops : List Op) :
    ((run t (INA219.powerUp s0 c).1 ops).dev.available = true ∧
        fromConversion t (run t (INA219.powerUp s0 c).1 ops).dev) ∨
      valuesCleared (run t (INA219.powerUp s0 c).1 ops).dev := by
  have hinit : ((INA219.powerUp s0 c).1.dev.available = true ∧
      fromConversion t (INA219.powerUp s0 c).1.dev) ∨
      valuesCleared (INA219.powerUp s0 c).1.dev := by
    right
    simp [powerUp_dev, INA219.clear, valuesCleared]
  generalize (INA219.powerUp s0 c).1 = s at hinit
  induction ops generalizing s with
  | nil => exact hinit
  | cons op rest ih => exact ih (step t s op) (step_consistent t s op hinit)

/-- C12: after `powerUp`, a successful `read` whose bus-voltage register `0x0C39` has
the overflow bit set, and a `read` whose first register read fails, the four values are
zero and `available` is false, yet `overflow` is still true; a following `powerUp`
leaves it true as well. `clear` does not reset `overflow`. -/
theorem overflow_survives_clear :
    valuesCleared (run Target.avr (INA219.powerUp World.fresh 0).1
        [Op.read (ReadReply.ok 0x0032) (ReadReply.ok 0x0C39),
         Op.read (ReadReply.failed 2) (ReadReply.failed 2)]).dev ∧
    (run Target.avr (INA219.powerUp World.fresh 0).1
        [Op.read (ReadReply.ok 0x0032) (ReadReply.ok 0x0C39),
         Op.read (ReadReply.failed 2) (ReadReply.failed 2)]).dev.overflow = true ∧
    (run Target.avr (INA219.powerUp World.fresh 0).1
        [Op.read (ReadReply.ok 0x0032) (ReadReply.ok 0x0C39),
         Op.read (ReadReply.failed 2) (ReadReply.failed 2),
         Op.powerUp 0]).dev.overflow = true ∧
    (∀ d : INA219, (INA219.clear d).overflow = d.overflow) := by
  refine ⟨?_, by decide, by decide, fun d => rfl⟩
  have hp : (step Target.avr (INA219.powerUp World.fresh 0).1
      (Op.read (ReadReply.ok 0x0032) (ReadReply.ok 0x0C39))).dev._powerDown = false := by
    decide
  show valuesCleared (INA219.read Target.avr _ _ _).1.dev
  rw [read_first_failed Target.avr _ _ _ hp (by decide)]
  simp [afterFirstRead, INA219.registerRead, INA219.clear, valuesCleared]

/-! ## `available` in the Powered-Down state -/

/-- On a device not flagged powered-down, `read` leaves the flag clear and sets
`available` to whether both register reads ended with status 0. -/
theorem read_poweredUp (t : Target) (s : World) (r1 r2 : ReadReply)
    (hp : s.dev._powerDown = false) :
    (INA219.read t s r1 r2).1.dev._powerDown = false ∧
    (INA219.read t s r1 r2).1.dev.available = decide (r1.status = 0 ∧ r2.status = 0) := by
  by_cases h1 : r1.status = 0
  · by_cases h2 : r2.status = 0
    · rw [read_ok_dev t s r1 r2 hp h1 h2]
      simp [h1, h2]
    · rw [read_second_failed t s r1 r2 hp h1 h2]
      simp [afterSecondRead, afterFirstRead, INA219.registerRead, INA219.clear, hp, h2]
  · rw [read_first_failed t s r1 r2 hp h1]
    simp [afterFirstRead, INA219.registerRead, INA219.clear, hp, h1]

/-- From a state not flagged powered-down, `read` calls keep the flag clear, and
`available` is decided by the last of them, or is as before when there is none. -/
theorem run_reads (t : Target) (reads : List Op) (s : World)
    (hp : s.dev._powerDown = false) (hr : ∀ op ∈ reads, op.isRead = true) :
    (run t s reads).dev._powerDown = false ∧
    (run t s reads).dev.available
      = (match reads.getLast? with
         | some op => op.succeeds
         | none => s.dev.available) := by
  induction reads generalizing s with
  | nil => exact ⟨hp, rfl⟩
  | cons op rest ih =>
    have hrest : ∀ o ∈ rest, o.isRead = true := fun o ho => hr o (List.mem_cons_of_mem _ ho)
    have hop : op.isRead = true := hr op (List.mem_cons_self _ _)
    cases op with
    | powerUp c => simp [Op.isRead] at hop
    | powerDown c => simp [Op.isRead] at hop
    | read r1 r2 =>
      obtain ⟨hp1, ha1⟩ := read_poweredUp t s r1 r2 hp
      have hrun : run t s (Op.read r1 r2 :: rest) = run t (INA219.read t s r1 r2).1 rest := rfl
      obtain ⟨hp2, ha2⟩ := ih (INA219.read t s r1 r2).1 hp1 hrest
      rw [hrun]
      refine ⟨hp2, ?_⟩
      rw [ha2]
      cases rest with
      | nil => simp [ha1, Op.succeeds]
      | cons b l =>
        rw [List.getLast?_cons_cons, List.getLast?_cons]

/-- Every sequence of calls either has a last `powerUp`, after which no `powerUp`
follows, or has no `powerUp` at all. -/
theorem split_at_last_powerUp (t : Target) (ops : List Op) (s : World) :
    (∃ pre c1 post s1, ops = pre ++ Op.powerUp c1 :: post ∧
        (∀ op ∈ post, op.isPowerUp = false) ∧
        run t s ops = run t (INA219.powerUp s1 c1).1 post) ∨
    (∀ op ∈ ops, op.isPowerUp = false) := by
  induction ops generalizing s with
  | nil => exact Or.inr (fun op ho => absurd ho (List.not_mem_nil op))
  | cons op rest ih =>
    have hrun : run t s (op :: rest) = run t (step t s op) rest := rfl
    rcases ih (step t s op) with ⟨pre, c1, post, s1, hsplit, hpost, heq⟩ | hnone
    · refine Or.inl ⟨op :: pre, c1, post, s1, ?_, hpost, ?_⟩
      · rw [hsplit]
        rfl
      · rw [hrun, heq]
    · cases op with
      | powerUp c =>
        exact Or.inl ⟨[], c, rest, s, rfl, hnone, rfl⟩
      | powerDown c =>
        refine Or.inr (fun o ho => ?_)
        rcases List.mem_cons.mp ho with rfl | hin
        · rfl
        · exact hnone o hin
      | read r1 r2 =>
        refine Or.inr (fun o ho => ?_)
        rcases List.mem_cons.mp ho with rfl | hin
        · rfl
        · exact hnone o hin

/-- From a state not flagged powered-down, calls other than `powerUp` that end in a
state flagged powered-down are `read` calls, then a `powerDown`, then the rest. -/
theorem split_at_first_powerDown (t : Target) (post : List Op) (s : World)
    (hp : s.dev._powerDown = false) (hpost : ∀ op ∈ post, op.isPowerUp = false)
    (hpd : (run t s post).dev._powerDown = true) :
    ∃ reads c2 tail, post = reads ++ Op.powerDown c2 :: tail ∧
      (∀ op ∈ reads, op.isRead = true) ∧ (∀ op ∈ tail, op.isPowerUp = false) := by
  induction post generalizing s with
  | nil =>
    have hs : (run t s []).dev._powerDown = false := hp
    rw [hs] at hpd
    exact absurd hpd (by simp)
  | cons op rest ih =>
    have hrest : ∀ o ∈ rest, o.isPowerUp = false :=
      fun o ho => hpost o (List.mem_cons_of_mem _ ho)
    have hop : op.isPowerUp = false := hpost op (List.mem_cons_self _ _)
    cases op with
    | powerUp c => simp [Op.isPowerUp] at hop
    | powerDown c =>
      exact ⟨[], c, rest, rfl, fun o ho => absurd ho (List.not_mem_nil o), hrest⟩
    | read r1 r2 =>
      have hp1 := (read_poweredUp t s r1 r2 hp).1
      have hrun : run t s (Op.read r1 r2 :: rest) = run t (INA219.read t s r1 r2).1 rest := rfl
      rw [hrun] at hpd
      obtain ⟨reads, c2, tail, hsplit, hreads, htail⟩ := ih _ hp1 hrest hpd
      refine ⟨Op.read r1 r2 :: reads, c2, tail, ?_, ?_, htail⟩
      · rw [hsplit]
        rfl
      · intro o ho
        rcases List.mem_cons.mp ho with rfl | hin
        · rfl
        · exact hreads o hin

/-- The state after `powerUp`, `read` calls, `powerDown` and calls other than
`powerUp`: flagged powered-down, with `available` decided by the last of the `read`
calls before the `powerDown`. -/
theorem available_after_powerDown (t : Target) (s1 : World) (c1 c2 : Fin 256)
    (reads tail : List Op) (hreads : ∀ op ∈ reads, op.isRead = true)
    (htail : ∀ op ∈ tail, op.isPowerUp = false) :
    (run t (INA219.powerUp s1 c1).1 (reads ++ Op.powerDown c2 :: tail)).dev._powerDown
      = true ∧
    (run t (INA219.powerUp s1 c1).1 (reads ++ Op.powerDown c2 :: tail)).dev.available
      = lastReadSucceeded reads := by
  have hup : (INA219.powerUp s1 c1).1.dev._powerDown = false := by simp [powerUp_dev]
  have hav : (INA219.powerUp s1 c1).1.dev.available = false := by
    simp [powerUp_dev, INA219.clear]
  obtain ⟨-, ha⟩ := run_reads t reads _ hup hreads
  have hrun : run t (INA219.powerUp s1 c1).1 (reads ++ Op.powerDown c2 :: tail)
      = run t (INA219.powerDown (run t (INA219.powerUp s1 c1).1 reads) c2).1 tail := by
    simp [run, step, List.foldl_append]
  have hd : (INA219.powerDown (run t (INA219.powerUp s1 c1).1 reads) c2).1.dev._powerDown
      = true := by simp [powerDown_dev]
  have hk : (INA219.powerDown (run t (INA219.powerUp s1 c1).1 reads) c2).1.dev.available
      = (run t (INA219.powerUp s1 c1).1 reads).dev.available := by simp [powerDown_dev]
  obtain ⟨hflag, hkeep⟩ := run_poweredDown t tail _ hd htail
  rw [hrun]
  refine ⟨hflag, ?_⟩
  rw [hkeep, hk, ha, hav]
  rfl

/-- The list ends with a `read` whose two register reads both end with status 0. -/
theorem lastReadSucceeded_iff (reads : List Op) :
    lastReadSucceeded reads = true ↔
      ∃ init r1 r2, reads = init ++ [Op.read r1 r2] ∧ r1.status = 0 ∧ r2.status = 0 := by
  unfold lastReadSucceeded
  constructor
  · intro h
    cases hl : reads.getLast? with
    | none => rw [hl] at h; exact absurd h (by simp)
    | some op =>
      rw [hl] at h
      obtain ⟨init, hinit⟩ := List.getLast?_eq_some_iff.mp hl
      cases op with
      | powerUp c => simp [Op.succeeds] at h
      | powerDown c => simp [Op.succeeds] at h
      | read r1 r2 =>
        have hs : r1.status = 0 ∧ r2.status = 0 := by simpa [Op.succeeds] using h
        exact ⟨init, r1, r2, hinit, hs.1, hs.2⟩
  · rintro ⟨init, r1, r2, hreads, h1, h2⟩
    have hl : reads.getLast? = some (Op.read r1 r2) :=
      List.getLast?_eq_some_iff.mpr ⟨init, hreads⟩
    rw [hl]
    simp [Op.succeeds, h1, h2]

/-- When no call of the list succeeds, the last one does not. -/
theorem lastReadSucceeded_of_none (reads : List Op)
    (h : ∀ op ∈ reads, op.succeeds = false) : lastReadSucceeded reads = false := by
  unfold lastReadSucceeded
  cases hl : reads.getLast? with
  | none => rfl
  | some op => exact h op (List.mem_of_getLast?_eq_some hl)

/-- C10 as amended: in every state reachable from a `powerUp` by any sequence of
`powerUp`, `powerDown` and `read` calls under any transport behaviour, when the device
is flagged powered-down the calls since the most recent `powerUp` are `read` calls,
then a `powerDown`, then calls other than `powerUp`; and `available` is true exactly
when those `read` calls before the `powerDown` are not empty and the last of them ended
both register reads with status 0. In particular `available` is false when no `read`
since the most recent `powerUp` succeeded. -/
theorem available_while_poweredDown (t : Target) (s0 : World) (c : Fin 256)
    (ops : List Op)
    (hpd : (run t (INA219.powerUp s0 c).1 ops).dev._powerDown = true) :
    ∃ pre c1 reads c2 tail,
      Op.powerUp c :: ops = pre ++ Op.powerUp c1 :: (reads ++ Op.powerDown c2 :: tail) ∧
      (∀ op ∈ reads, op.isRead = true) ∧
      (∀ op ∈ tail, op.isPowerUp = false) ∧
      (run t (INA219.powerUp s0 c).1 ops).dev.available = lastReadSucceeded reads ∧
      ((run t (INA219.powerUp s0 c).1 ops).dev.available = true ↔
        ∃ init r1 r2, reads = init ++ [Op.read r1 r2] ∧ r1.status = 0 ∧ r2.status = 0) ∧
      ((∀ op ∈ reads, op.succeeds = false) →
        (run t (INA219.powerUp s0 c).1 ops).dev.available = false) := by
  have key : ∃ pre c1 post s1,
      Op.powerUp c :: ops = pre ++ Op.powerUp c1 :: post ∧
      (∀ op ∈ post, op.isPowerUp = false) ∧
      run t (INA219.powerUp s0 c).1 ops = run t (INA219.powerUp s1 c1).1 post := by
    rcases split_at_last_powerUp t ops (INA219.powerUp s0 c).1 with
      ⟨pre, c1, post, s1, hsplit, hpost, heq⟩ | hnone
    · refine ⟨Op.powerUp c :: pre, c1, post, s1, ?_, hpost, heq⟩
      rw [hsplit]
      rfl
    · exact ⟨[], c, ops, s0, rfl, hnone, rfl⟩
  obtain ⟨pre, c1, post, s1, hsplit, hpost, heq⟩ := key
  have hup : (INA219.powerUp s1 c1).1.dev._powerDown = false := by simp [powerUp_dev]
  rw [heq] at hpd
  obtain ⟨reads, c2, tail, hpostsplit, hreads, htail⟩ :=
    split_at_first_powerDown t post _ hup hpost hpd
  have hav := (available_after_powerDown t s1 c1 c2 reads tail hreads htail).2
  rw [← hpostsplit, ← heq] at hav
  refine ⟨pre, c1, reads, c2, tail, ?_, hreads, htail, hav, ?_, ?_⟩
  · rw [hsplit, hpostsplit]
  · rw [hav]
    exact lastReadSucceeded_iff reads
  · intro hnone
    rw [hav]
    exact lastReadSucceeded_of_none reads hnone

/-- An instance of `available_while_poweredDown`: a successful `read`, `powerUp`, a
failed and a successful `read`, `powerDown`, and a `read` while powered down. -/
theorem available_while_poweredDown_witness :
    (run Target.avr (INA219.powerUp World.fresh 0).1
        [Op.read (ReadReply.ok 0x0032) (ReadReply.ok 0x0C38), Op.powerUp 0,
         Op.read (ReadReply.failed 2) (ReadReply.failed 2),
         Op.read (ReadReply.ok 0x0100) (ReadReply.ok 0x0C38), Op.powerDown 3,
         Op.read (ReadReply.ok 0x0032) (ReadReply.ok 0x0C38)]).dev._powerDown = true ∧
    ∃ pre c1 reads c2 tail,
      Op.powerUp 0 ::
        [Op.read (ReadReply.ok 0x0032) (ReadReply.ok 0x0C38), Op.powerUp 0,
         Op.read (ReadReply.failed 2) (ReadReply.failed 2),
         Op.read (ReadReply.ok 0x0100) (ReadReply.ok 0x0C38), Op.powerDown 3,
         Op.read (ReadReply.ok 0x0032) (ReadReply.ok 0x0C38)]
        = pre ++ Op.powerUp c1 :: (reads ++ Op.powerDown c2 :: tail) ∧
      (∀ op ∈ reads, op.isRead = true) ∧
      (∀ op ∈ tail, op.isPowerUp = false) ∧
      (run Target.avr (INA219.powerUp World.fresh 0).1
        [Op.read (ReadReply.ok 0x0032) (ReadReply.ok 0x0C38), Op.powerUp 0,
         Op.read (ReadReply.failed 2) (ReadReply.failed 2),
         Op.read (ReadReply.ok 0x0100) (ReadReply.ok 0x0C38), Op.powerDown 3,
         Op.read (ReadReply.ok 0x0032) (ReadReply.ok 0x0C38)]).dev.available
        = lastReadSucceeded reads ∧
      ((run Target.avr (INA219.powerUp World.fresh 0).1
        [Op.read (ReadReply.ok 0x0032) (ReadReply.ok 0x0C38), Op.powerUp 0,
         Op.read (ReadReply.failed 2) (ReadReply.failed 2),
         Op.read (ReadReply.ok 0x0100) (ReadReply.ok 0x0C38), Op.powerDown 3,
         Op.read (ReadReply.ok 0x0032) (ReadReply.ok 0x0C38)]).dev.available = true ↔
        ∃ init r1 r2, reads = init ++ [Op.read r1 r2] ∧ r1.status = 0 ∧ r2.status = 0) ∧
      ((∀ op ∈ reads, op.succeeds = false) →
        (run Target.avr (INA219.powerUp World.fresh 0).1
        [Op.read (ReadReply.ok 0x0032) (ReadReply.ok 0x0C38), Op.powerUp 0,
         Op.read (ReadReply.failed 2) (ReadReply.failed 2),
         Op.read (ReadReply.ok 0x0100) (ReadReply.ok 0x0C38), Op.powerDown 3,
         Op.read (ReadReply.ok 0x0032) (ReadReply.ok 0x0C38)]).dev.available = false) :=
  ⟨by decide,
    available_while_poweredDown Target.avr World.fresh 0
      [Op.read (ReadReply.ok 0x0032) (ReadReply.ok 0x0C38), Op.powerUp 0,
       Op.read (ReadReply.failed 2) (ReadReply.failed 2),
       Op.read (ReadReply.ok 0x0100) (ReadReply.ok 0x0C38), Op.powerDown 3,
       Op.read (ReadReply.ok 0x0032) (ReadReply.ok 0x0C38)] (by decide)⟩

/-- After `powerUp`, a successful `read`, a second `powerUp` and `powerDown`, the
device is flagged powered-down and `available` is false: the successful `read` came
before the most recent `powerUp`. -/
theorem available_false_after_second_powerUp :
    (run Target.avr (INA219.powerUp World.fresh 0).1
        [Op.read (ReadReply.ok 0x0032) (ReadReply.ok 0x0C38), Op.powerUp 0,
         Op.powerDown 0]).dev._powerDown = true ∧
    (run Target.avr (INA219.powerUp World.fresh 0).1
        [Op.read (ReadReply.ok 0x0032) (ReadReply.ok 0x0C38), Op.powerUp 0,
         Op.powerDown 0]).dev.available = false := by
  decide

end ErriezINA219
